import Mathlib

/-!
# CacheProxy — formal model of `src/main.go`

A shallow embedding of the request-handling / cache-interaction path of the
single-origin caching reverse proxy in `main.go`:

* `CacheItem`, the cache-map operations (Go `map[string]CacheItem` reads and
  assignments),
* `HandleRequest`, the per-request control flow (hit path, origin fetch,
  JSON decode/encode, cache insert),
* an explicit slice-reference model of Go's `http.Header` for the
  header-copy loop, and
* a small interleaving model of the `sync.RWMutex` discipline around the
  cache map.

Go `map[string]interface{}` values obtained from `json.Decode` are modelled
by the inductive `Jval` (numbers as `Int`: the claims under study never
depend on float formatting).  A response body is modelled by the parse
outcome of its first JSON value (`Body.notJson` for malformed bytes),
since `json.NewDecoder(..).Decode` consumes exactly one JSON value.
-/

/-- A decoded JSON value, as produced by Go's `json.Decode` into
`interface{}` (objects are key-unique maps; we carry the field list). -/
inductive Jval where
  | null : Jval
  | bool (b : Bool) : Jval
  | num (n : Int) : Jval
  | str (s : String) : Jval
  | arr (xs : List Jval) : Jval
  | obj (fields : List (String × Jval)) : Jval
deriving Repr

/-- Minimal JSON string escaping (quote and backslash), standing in for
`encoding/json` string escaping; the claims never depend on the details. -/
def escapeJson (s : String) : String :=
  String.mk (s.data.flatMap (fun c =>
    if c = '"' then ['\\', '"']
    else if c = '\\' then ['\\', '\\']
    else [c]))

/-- Serialization of a decoded value, as `json.Marshal` does: object keys
are emitted in sorted order (Go sorts map keys), no added whitespace. -/
def encodeJson : Jval → String
  | .null => "null"
  | .bool true => "true"
  | .bool false => "false"
  | .num n => toString n
  | .str s => "\"" ++ escapeJson s ++ "\""
  | .arr xs =>
      "[" ++ String.intercalate "," (xs.attach.map (fun x => encodeJson x.1)) ++ "]"
  | .obj fields =>
      "\x7b" ++ String.intercalate ","
        (((fields.attach.map (fun kv =>
            (kv.1.1, "\"" ++ escapeJson kv.1.1 ++ "\":" ++ encodeJson kv.1.2))).mergeSort
          (fun a b => a.1 ≤ b.1)).map Prod.snd) ++ "\x7d"
decreasing_by
  · calc sizeOf x.1 < sizeOf xs := List.sizeOf_lt_of_mem x.2
      _ < sizeOf (Jval.arr xs) := by simp
  · calc sizeOf kv.1.2 < sizeOf kv.1 := by
          obtain ⟨⟨k, v⟩, h⟩ := kv; simp
        _ < sizeOf fields := List.sizeOf_lt_of_mem kv.2
        _ < sizeOf (Jval.obj fields) := by simp

/-- `json.NewEncoder(w).Encode(v)` writes `Marshal(v)` plus a trailing
newline. -/
def encodeJsonLn (v : Jval) : String := encodeJson v ++ "\n"

/-- Go `http.Header` contents by value: key to list of values. -/
abbrev HeaderVal := List (String × List String)

/-- `CacheItem` from `main.go`: stored body bytes, header snapshot,
and the `time.Now()` timestamp recorded at insert. -/
structure CacheItem where
  Response : String
  Headers : HeaderVal
  CachedAt : Nat
deriving Repr, DecidableEq

/-- The cache map `map[string]CacheItem`, as an association list with
unique keys (later insert replaces). -/
abbrev Cache := List (String × CacheItem)

/-- Go map read `item, found := cache[key]`. -/
def mapLookup (c : Cache) (k : String) : Option CacheItem :=
  match c.find? (fun p => p.1 = k) with
  | some p => some p.2
  | none => none

/-- Go map assignment `cache[key] = item`: replaces any prior entry for
the key, leaves all other keys untouched. -/
def mapInsert (c : Cache) (k : String) (v : CacheItem) : Cache :=
  (k, v) :: c.filter (fun p => p.1 ≠ k)

/-- The parse outcome of an origin response body: either its first JSON
value, or malformed JSON. -/
inductive Body where
  | notJson : Body
  | val (v : Jval) : Body

/-- The decoded `responseData : map[string]interface{}` after a
successful `Decode`: Go distinguishes the nil map (left untouched by
decoding the JSON literal `null` — no error is reported) from a
populated map. -/
inductive ResponseData where
  | nilMap : ResponseData
  | obj (fields : List (String × Jval)) : ResponseData
deriving Repr

/-- What `json.NewDecoder(res.Body).Decode(&responseData)` yields for
`responseData : map[string]interface{}`: the object's fields on success,
the nil map for the literal `null` (which decodes into a map with no
error), and an error when the body is not well-formed JSON or its first
value is neither an object nor `null`. -/
def decodeObj : Body → Option ResponseData
  | .notJson => none
  | .val Jval.null => some ResponseData.nilMap
  | .val (.obj fields) => some (ResponseData.obj fields)
  | .val _ => none

/-- `json.Marshal(responseData)`: the nil map marshals to `null`. -/
def encodeResponseData : ResponseData → String
  | .nilMap => "null"
  | .obj fields => encodeJson (Jval.obj fields)

/-- An origin HTTP response as seen through `http.Get`: status code,
headers, body. -/
structure OriginResponse where
  status : Nat
  header : HeaderVal
  body : Body

/-- Result of `http.Get(originURL)`: a transport error or a response. -/
inductive FetchResult where
  | failure : FetchResult
  | success (res : OriginResponse) : FetchResult

/-- The origin server's behaviour: what `http.Get` returns per URL. -/
abbrev Origin := String → FetchResult

/-- An inbound request: `r.URL.Path` and `r.URL.RawQuery`. -/
structure Request where
  path : String
  rawQuery : String

/-- `originURL := fmt.Sprintf("%s%s", origin, r.URL.Path)` — the cache
key / fetch target; only the path is used, never the query string. -/
def cacheKeyOf (origin : String) (r : Request) : String :=
  origin ++ r.path

/-- Everything `HandleRequest` makes observable: the client-visible
status, the `X-Cache` marker (if set), the headers copied from a cache
entry onto the response, the bytes written to the client, the cache map
after the call, and the list of URLs passed to `http.Get`. -/
structure HandlerOutcome where
  status : Nat
  xCache : Option String
  copiedToResponse : HeaderVal
  clientBody : String
  cache : Cache
  fetched : List String
deriving Repr

/-- `HandleRequest(w, r, origin)` from `main.go`, over cache state `c`,
origin behaviour `world`, and the current time `now` (for `time.Now()`).
The hit path never calls `WriteHeader`, so net/http reports status 200;
`http.Error` writes its message followed by a newline. `json.Marshal` on
a value produced by `json.Decode` cannot fail, so the cache-copy encode
is total here. -/
def HandleRequest (c : Cache) (r : Request) (origin : String)
    (world : Origin) (now : Nat) : HandlerOutcome :=
  let originURL := cacheKeyOf origin r
  match mapLookup c originURL with
  | some cacheItem =>
      { status := 200
        xCache := some "HIT"
        copiedToResponse := cacheItem.Headers
        clientBody := cacheItem.Response
        cache := c
        fetched := [] }
  | none =>
      match world originURL with
      | .failure =>
          { status := 502
            xCache := none
            copiedToResponse := []
            clientBody := "Error fetching from origin\n"
            cache := c
            fetched := [originURL] }
      | .success res =>
          match decodeObj res.body with
          | none =>
              { status := 500
                xCache := none
                copiedToResponse := []
                clientBody := "Error decoding response from origin\n"
                cache := c
                fetched := [originURL] }
          | some responseData =>
              let body := encodeResponseData responseData
              let copiedHeaders := res.header.map (fun kv => kv)
              { status := 200
                xCache := some "MISS"
                copiedToResponse := []
                clientBody := encodeResponseData responseData ++ "\n"
                cache := mapInsert c originURL
                  { Response := body
                    Headers := copiedHeaders
                    CachedAt := now }
                fetched := [originURL] }

/-! ## Cache-map lemmas -/

theorem mapLookup_insert_self (c : Cache) (k : String) (v : CacheItem) :
    mapLookup (mapInsert c k v) k = some v := by
  simp [mapLookup, mapInsert, List.find?]

theorem find?_filter_ne_key (l : List (String × CacheItem)) (k k' : String)
    (h : k' ≠ k) :
    (l.filter (fun p => p.1 ≠ k)).find? (fun p => p.1 = k') =
      l.find? (fun p => p.1 = k') := by
  induction l with
  | nil => rfl
  | cons p rest ih =>
      by_cases hp : p.1 = k
      · rw [List.filter_cons_of_neg (by simp [hp]),
          List.find?_cons_of_neg _ (by simp [hp, Ne.symm h]), ih]
      · by_cases hp' : p.1 = k'
        · rw [List.filter_cons_of_pos (by simp [hp]),
            List.find?_cons_of_pos _ (by simp [hp']),
            List.find?_cons_of_pos _ (by simp [hp'])]
        · rw [List.filter_cons_of_pos (by simp [hp]),
            List.find?_cons_of_neg _ (by simp [hp']),
            List.find?_cons_of_neg _ (by simp [hp']), ih]

theorem mapLookup_insert_ne (c : Cache) (k k' : String) (v : CacheItem)
    (h : k' ≠ k) : mapLookup (mapInsert c k v) k' = mapLookup c k' := by
  unfold mapLookup mapInsert
  rw [List.find?_cons_of_neg _ (by simp [Ne.symm h]), find?_filter_ne_key c k k' h]


/-- Evaluation of the hit path of `HandleRequest`. -/
theorem handleRequest_hit_eq (c : Cache) (r : Request) (origin : String)
    (world : Origin) (now : Nat) (item : CacheItem)
    (h : mapLookup c (cacheKeyOf origin r) = some item) :
    HandleRequest c r origin world now =
      { status := 200, xCache := some "HIT", copiedToResponse := item.Headers,
        clientBody := item.Response, cache := c, fetched := [] } := by
  simp [HandleRequest, h]

/-- Evaluation of the successful miss path of `HandleRequest`. -/
theorem handleRequest_miss_eq (c : Cache) (r : Request) (origin : String)
    (world : Origin) (now : Nat) (res : OriginResponse)
    (responseData : ResponseData)
    (habs : mapLookup c (cacheKeyOf origin r) = none)
    (hw : world (cacheKeyOf origin r) = FetchResult.success res)
    (hd : decodeObj res.body = some responseData) :
    HandleRequest c r origin world now =
      { status := 200, xCache := some "MISS", copiedToResponse := [],
        clientBody := encodeResponseData responseData ++ "\n",
        cache := mapInsert c (cacheKeyOf origin r)
          ⟨encodeResponseData responseData, res.header.map (fun kv => kv), now⟩,
        fetched := [cacheKeyOf origin r] } := by
  simp [HandleRequest, habs, hw, hd]

/-! ## Claim theorems -/


/-- C1: when the cache key (origin base address ++ request path) is present
in the cache, `HandleRequest` copies the entry's stored header set onto the
response, sets the `X-Cache` marker to the hit value, writes the stored
body verbatim, performs no origin fetch, and leaves the cache unchanged. -/
theorem hit_served_from_cache (c : Cache) (r : Request) (origin : String)
    (world : Origin) (now : Nat) (item : CacheItem)
    (h : mapLookup c (cacheKeyOf origin r) = some item) :
    (HandleRequest c r origin world now).copiedToResponse = item.Headers ∧
    (HandleRequest c r origin world now).xCache = some "HIT" ∧
    (HandleRequest c r origin world now).clientBody = item.Response ∧
    (HandleRequest c r origin world now).fetched = [] ∧
    (HandleRequest c r origin world now).cache = c := by
  simp [HandleRequest, h]

/-- Witness for C1 at a concrete one-entry cache. -/
theorem hit_served_from_cache_witness :
    mapLookup [("http://o/x", ⟨"cached-body", [("K", ["v"])], 5⟩)]
      (cacheKeyOf "http://o" ⟨"/x", "q=1"⟩) =
      some ⟨"cached-body", [("K", ["v"])], 5⟩ ∧
    ((HandleRequest [("http://o/x", ⟨"cached-body", [("K", ["v"])], 5⟩)]
        ⟨"/x", "q=1"⟩ "http://o" (fun _ => FetchResult.failure) 9).copiedToResponse =
      (⟨"cached-body", [("K", ["v"])], 5⟩ : CacheItem).Headers ∧
    (HandleRequest [("http://o/x", ⟨"cached-body", [("K", ["v"])], 5⟩)]
        ⟨"/x", "q=1"⟩ "http://o" (fun _ => FetchResult.failure) 9).xCache = some "HIT" ∧
    (HandleRequest [("http://o/x", ⟨"cached-body", [("K", ["v"])], 5⟩)]
        ⟨"/x", "q=1"⟩ "http://o" (fun _ => FetchResult.failure) 9).clientBody =
      (⟨"cached-body", [("K", ["v"])], 5⟩ : CacheItem).Response ∧
    (HandleRequest [("http://o/x", ⟨"cached-body", [("K", ["v"])], 5⟩)]
        ⟨"/x", "q=1"⟩ "http://o" (fun _ => FetchResult.failure) 9).fetched = [] ∧
    (HandleRequest [("http://o/x", ⟨"cached-body", [("K", ["v"])], 5⟩)]
        ⟨"/x", "q=1"⟩ "http://o" (fun _ => FetchResult.failure) 9).cache =
      [("http://o/x", ⟨"cached-body", [("K", ["v"])], 5⟩)]) :=
  ⟨by rfl, hit_served_from_cache _ _ _ _ _ _ (by rfl)⟩

/-- C4: a transport failure of the origin fetch yields a bad-gateway (502)
response and leaves the cache untouched. -/
theorem origin_failure_bad_gateway (c : Cache) (r : Request) (origin : String)
    (world : Origin) (now : Nat)
    (habs : mapLookup c (cacheKeyOf origin r) = none)
    (hw : world (cacheKeyOf origin r) = FetchResult.failure) :
    (HandleRequest c r origin world now).status = 502 ∧
    (HandleRequest c r origin world now).cache = c := by
  simp [HandleRequest, habs, hw]

/-- Witness for C4 on the empty cache and an unreachable origin. -/
theorem origin_failure_bad_gateway_witness :
    mapLookup [] (cacheKeyOf "http://o" ⟨"/x", ""⟩) = none ∧
    (fun _ => FetchResult.failure : Origin) (cacheKeyOf "http://o" ⟨"/x", ""⟩) =
      FetchResult.failure ∧
    ((HandleRequest [] ⟨"/x", ""⟩ "http://o" (fun _ => FetchResult.failure) 9).status = 502 ∧
    (HandleRequest [] ⟨"/x", ""⟩ "http://o" (fun _ => FetchResult.failure) 9).cache = []) :=
  ⟨by rfl, by rfl, origin_failure_bad_gateway _ _ _ _ _ (by rfl) (by rfl)⟩

/-- C7: a later insert for a key fully replaces the prior entry for that
key — the lookup returns exactly the most recently inserted entry (with
`found = true`, i.e. a `some` result) — while every other key's entry is
unchanged. -/
theorem insert_replaces_prior_entry (c : Cache) (k k' : String)
    (v1 v2 : CacheItem) (h : k' ≠ k) :
    mapLookup (mapInsert (mapInsert c k v1) k v2) k = some v2 ∧
    mapLookup (mapInsert (mapInsert c k v1) k v2) k' = mapLookup c k' := by
  exact ⟨mapLookup_insert_self _ _ _, by
    rw [mapLookup_insert_ne _ _ _ _ h, mapLookup_insert_ne _ _ _ _ h]⟩

/-- Witness for C7 at two concrete inserts over a two-key cache. -/
theorem insert_replaces_prior_entry_witness :
    ("b" : String) ≠ "a" ∧
    (mapLookup
        (mapInsert (mapInsert [("b", ⟨"B", [], 0⟩)] "a" ⟨"1", [], 1⟩) "a" ⟨"2", [], 2⟩)
        "a" = some ⟨"2", [], 2⟩ ∧
    mapLookup
        (mapInsert (mapInsert [("b", ⟨"B", [], 0⟩)] "a" ⟨"1", [], 1⟩) "a" ⟨"2", [], 2⟩)
        "b" = mapLookup [("b", ⟨"B", [], 0⟩)] "b") :=
  ⟨by decide, insert_replaces_prior_entry _ _ _ _ _ (by decide)⟩

/-- C2: on a cache miss whose origin fetch succeeds and decodes as a JSON
object, `HandleRequest` fetches exactly once, at the address
`origin ++ path` (the query string plays no role anywhere), sets the
`X-Cache` marker to the miss value, writes the re-encoded JSON (plus the
encoder's trailing newline) to the client, and inserts a new entry for the
cache key. -/
theorem miss_fetches_once_and_caches (c : Cache) (r : Request)
    (origin : String) (world : Origin) (now : Nat) (res : OriginResponse)
    (responseData : List (String × Jval))
    (habs : mapLookup c (cacheKeyOf origin r) = none)
    (hw : world (cacheKeyOf origin r) = FetchResult.success res)
    (hd : decodeObj res.body = some (ResponseData.obj responseData)) :
    (HandleRequest c r origin world now).fetched = [origin ++ r.path] ∧
    (HandleRequest c r origin world now).xCache = some "MISS" ∧
    (HandleRequest c r origin world now).clientBody =
      encodeJsonLn (Jval.obj responseData) ∧
    (HandleRequest c r origin world now).cache =
      mapInsert c (cacheKeyOf origin r)
        ⟨encodeJson (Jval.obj responseData), res.header.map (fun kv => kv), now⟩ ∧
    mapLookup (HandleRequest c r origin world now).cache (cacheKeyOf origin r) =
      some ⟨encodeJson (Jval.obj responseData), res.header.map (fun kv => kv), now⟩ ∧
    (∀ q', HandleRequest c ⟨r.path, q'⟩ origin world now =
      HandleRequest c r origin world now) := by
  refine ⟨?_, ?_, ?_, ?_, ?_, fun q' => rfl⟩ <;>
    (simp [HandleRequest, habs, hw, hd, mapLookup_insert_self, encodeResponseData,
      encodeJsonLn]; try simp [cacheKeyOf])

/-- Witness for C2 on the empty cache with a concrete origin object. -/
theorem miss_fetches_once_and_caches_witness :
    mapLookup [] (cacheKeyOf "http://o" ⟨"/x", ""⟩) = none ∧
    (fun _ => FetchResult.success ⟨200, [("K", ["v"])], Body.val (Jval.obj [("a", Jval.num 1)])⟩ :
      Origin) (cacheKeyOf "http://o" ⟨"/x", ""⟩) =
      FetchResult.success ⟨200, [("K", ["v"])], Body.val (Jval.obj [("a", Jval.num 1)])⟩ ∧
    decodeObj (OriginResponse.body ⟨200, [("K", ["v"])], Body.val (Jval.obj [("a", Jval.num 1)])⟩) =
      some (ResponseData.obj [("a", Jval.num 1)]) ∧
    ((HandleRequest [] ⟨"/x", ""⟩ "http://o"
        (fun _ => FetchResult.success ⟨200, [("K", ["v"])], Body.val (Jval.obj [("a", Jval.num 1)])⟩)
        7).fetched = ["http://o" ++ ("/x" : String)] ∧
    (HandleRequest [] ⟨"/x", ""⟩ "http://o"
        (fun _ => FetchResult.success ⟨200, [("K", ["v"])], Body.val (Jval.obj [("a", Jval.num 1)])⟩)
        7).xCache = some "MISS" ∧
    (HandleRequest [] ⟨"/x", ""⟩ "http://o"
        (fun _ => FetchResult.success ⟨200, [("K", ["v"])], Body.val (Jval.obj [("a", Jval.num 1)])⟩)
        7).clientBody = encodeJsonLn (Jval.obj [("a", Jval.num 1)]) ∧
    (HandleRequest [] ⟨"/x", ""⟩ "http://o"
        (fun _ => FetchResult.success ⟨200, [("K", ["v"])], Body.val (Jval.obj [("a", Jval.num 1)])⟩)
        7).cache = mapInsert [] (cacheKeyOf "http://o" ⟨"/x", ""⟩)
          ⟨encodeJson (Jval.obj [("a", Jval.num 1)]),
            (OriginResponse.header ⟨200, [("K", ["v"])], Body.val (Jval.obj [("a", Jval.num 1)])⟩).map
              (fun kv => kv), 7⟩ ∧
    mapLookup (HandleRequest [] ⟨"/x", ""⟩ "http://o"
        (fun _ => FetchResult.success ⟨200, [("K", ["v"])], Body.val (Jval.obj [("a", Jval.num 1)])⟩)
        7).cache (cacheKeyOf "http://o" ⟨"/x", ""⟩) =
      some ⟨encodeJson (Jval.obj [("a", Jval.num 1)]),
        (OriginResponse.header ⟨200, [("K", ["v"])], Body.val (Jval.obj [("a", Jval.num 1)])⟩).map
          (fun kv => kv), 7⟩ ∧
    (∀ q', HandleRequest [] ⟨"/x", q'⟩ "http://o"
        (fun _ => FetchResult.success ⟨200, [("K", ["v"])], Body.val (Jval.obj [("a", Jval.num 1)])⟩)
        7 = HandleRequest [] ⟨"/x", ""⟩ "http://o"
        (fun _ => FetchResult.success ⟨200, [("K", ["v"])], Body.val (Jval.obj [("a", Jval.num 1)])⟩)
        7)) :=
  ⟨by rfl, by rfl, by rfl, miss_fetches_once_and_caches _ _ _ _ _ _ _ (by rfl) (by rfl) (by rfl)⟩

/-- C3 counterexample: the origin body `null` is well-formed JSON whose
first value is not an object, yet `Decode` into `map[string]interface{}`
accepts it without error (it leaves the map nil): the handler answers
200 with the MISS marker, writes `null` plus the encoder newline, caches
an entry with body `null` for the key, and the subsequent request for
the same path is a hit — not the claimed internal error with nothing
cached and a repeated miss. -/
theorem decode_null_is_cached_counterexample :
    (HandleRequest [] ⟨"/x", ""⟩ "http://o"
        (fun _ => FetchResult.success ⟨200, [], Body.val Jval.null⟩) 7).status = 200 ∧
    (HandleRequest [] ⟨"/x", ""⟩ "http://o"
        (fun _ => FetchResult.success ⟨200, [], Body.val Jval.null⟩) 7).xCache =
      some "MISS" ∧
    (HandleRequest [] ⟨"/x", ""⟩ "http://o"
        (fun _ => FetchResult.success ⟨200, [], Body.val Jval.null⟩) 7).clientBody =
      "null\n" ∧
    mapLookup (HandleRequest [] ⟨"/x", ""⟩ "http://o"
        (fun _ => FetchResult.success ⟨200, [], Body.val Jval.null⟩) 7).cache
      (cacheKeyOf "http://o" ⟨"/x", ""⟩) = some ⟨"null", [], 7⟩ ∧
    (HandleRequest (HandleRequest [] ⟨"/x", ""⟩ "http://o"
        (fun _ => FetchResult.success ⟨200, [], Body.val Jval.null⟩) 7).cache
      ⟨"/x", ""⟩ "http://o"
      (fun _ => FetchResult.success ⟨200, [], Body.val Jval.null⟩) 9).xCache =
      some "HIT" := by
  exact ⟨rfl, rfl, rfl, rfl, rfl⟩

/-- C3 (amended): when the origin body is not well-formed JSON, or its
first JSON value is neither an object nor the literal `null` (which Go's
`Decode` into a map accepts without error — see the counterexample), the
client gets an internal-error (500) status, the cache is left unchanged
(the key stays absent), and a repeat of the same request behaves exactly
as the first (still a miss, nothing was cached). -/
theorem decode_failure_not_cached (c : Cache) (r : Request) (origin : String)
    (world : Origin) (now : Nat) (res : OriginResponse)
    (habs : mapLookup c (cacheKeyOf origin r) = none)
    (hw : world (cacheKeyOf origin r) = FetchResult.success res)
    (hd : decodeObj res.body = none) :
    (HandleRequest c r origin world now).status = 500 ∧
    (HandleRequest c r origin world now).cache = c ∧
    mapLookup (HandleRequest c r origin world now).cache (cacheKeyOf origin r) = none ∧
    (∀ now2, HandleRequest (HandleRequest c r origin world now).cache r origin world now2 =
      HandleRequest c r origin world now2) ∧
    (∀ now2, (HandleRequest (HandleRequest c r origin world now).cache r origin world now2).xCache
      = none) := by
  have hcache : (HandleRequest c r origin world now).cache = c := by
    simp [HandleRequest, habs, hw, hd]
  refine ⟨?_, hcache, ?_, fun now2 => by rw [hcache], fun now2 => ?_⟩
  · simp [HandleRequest, habs, hw, hd]
  · rw [hcache]; exact habs
  · rw [hcache]; simp [HandleRequest, habs, hw, hd]

/-- Witness for C3 on the empty cache and an origin replying `not json`. -/
theorem decode_failure_not_cached_witness :
    mapLookup [] (cacheKeyOf "http://o" ⟨"/x", ""⟩) = none ∧
    (fun _ => FetchResult.success ⟨200, [], Body.notJson⟩ : Origin)
      (cacheKeyOf "http://o" ⟨"/x", ""⟩) =
      FetchResult.success ⟨200, [], Body.notJson⟩ ∧
    decodeObj (OriginResponse.body ⟨200, [], Body.notJson⟩) = none ∧
    ((HandleRequest [] ⟨"/x", ""⟩ "http://o"
        (fun _ => FetchResult.success ⟨200, [], Body.notJson⟩) 7).status = 500 ∧
    (HandleRequest [] ⟨"/x", ""⟩ "http://o"
        (fun _ => FetchResult.success ⟨200, [], Body.notJson⟩) 7).cache = [] ∧
    mapLookup (HandleRequest [] ⟨"/x", ""⟩ "http://o"
        (fun _ => FetchResult.success ⟨200, [], Body.notJson⟩) 7).cache
      (cacheKeyOf "http://o" ⟨"/x", ""⟩) = none ∧
    (∀ now2, HandleRequest (HandleRequest [] ⟨"/x", ""⟩ "http://o"
        (fun _ => FetchResult.success ⟨200, [], Body.notJson⟩) 7).cache
        ⟨"/x", ""⟩ "http://o" (fun _ => FetchResult.success ⟨200, [], Body.notJson⟩) now2 =
      HandleRequest [] ⟨"/x", ""⟩ "http://o"
        (fun _ => FetchResult.success ⟨200, [], Body.notJson⟩) now2) ∧
    (∀ now2, (HandleRequest (HandleRequest [] ⟨"/x", ""⟩ "http://o"
        (fun _ => FetchResult.success ⟨200, [], Body.notJson⟩) 7).cache
        ⟨"/x", ""⟩ "http://o" (fun _ => FetchResult.success ⟨200, [], Body.notJson⟩) now2).xCache
      = none)) :=
  ⟨by rfl, by rfl, by rfl, decode_failure_not_cached _ _ _ _ _ _ (by rfl) (by rfl) (by rfl)⟩

/-- C6: when the origin body decodes as the JSON object `V`, the miss
response body is exactly the re-encoding of `V` (plus the client encoder's
newline), and every subsequent request for the same path is a hit whose
body is exactly the re-encoding of `V` — decode followed by re-encode
preserves the decoded value on both paths. -/
theorem decoded_object_roundtrips (c : Cache) (r : Request) (origin : String)
    (world : Origin) (now : Nat) (res : OriginResponse)
    (responseData : List (String × Jval))
    (habs : mapLookup c (cacheKeyOf origin r) = none)
    (hw : world (cacheKeyOf origin r) = FetchResult.success res)
    (hd : decodeObj res.body = some (ResponseData.obj responseData)) :
    (HandleRequest c r origin world now).clientBody =
      encodeJsonLn (Jval.obj responseData) ∧
    ∀ now2,
      (HandleRequest (HandleRequest c r origin world now).cache r origin world now2).xCache =
        some "HIT" ∧
      (HandleRequest (HandleRequest c r origin world now).cache r origin world now2).clientBody =
        encodeJson (Jval.obj responseData) := by
  have hmiss := handleRequest_miss_eq c r origin world now res
    (ResponseData.obj responseData) habs hw hd
  have hlook : mapLookup (HandleRequest c r origin world now).cache
      (cacheKeyOf origin r) =
      some ⟨encodeJson (Jval.obj responseData), res.header.map (fun kv => kv), now⟩ := by
    rw [hmiss]; exact mapLookup_insert_self _ _ _
  refine ⟨by rw [hmiss]; rfl, fun now2 => ?_⟩
  rw [handleRequest_hit_eq _ r origin world now2 _ hlook]
  exact ⟨rfl, rfl⟩

/-- Witness for C6 on a concrete origin object `{"a":1}`. -/
theorem decoded_object_roundtrips_witness :
    mapLookup [] (cacheKeyOf "http://o" ⟨"/x", ""⟩) = none ∧
    (fun _ => FetchResult.success ⟨200, [], Body.val (Jval.obj [("a", Jval.num 1)])⟩ :
      Origin) (cacheKeyOf "http://o" ⟨"/x", ""⟩) =
      FetchResult.success ⟨200, [], Body.val (Jval.obj [("a", Jval.num 1)])⟩ ∧
    decodeObj (OriginResponse.body ⟨200, [], Body.val (Jval.obj [("a", Jval.num 1)])⟩) =
      some (ResponseData.obj [("a", Jval.num 1)]) ∧
    ((HandleRequest [] ⟨"/x", ""⟩ "http://o"
        (fun _ => FetchResult.success ⟨200, [], Body.val (Jval.obj [("a", Jval.num 1)])⟩)
        7).clientBody = encodeJsonLn (Jval.obj [("a", Jval.num 1)]) ∧
    ∀ now2,
      (HandleRequest (HandleRequest [] ⟨"/x", ""⟩ "http://o"
          (fun _ => FetchResult.success ⟨200, [], Body.val (Jval.obj [("a", Jval.num 1)])⟩)
          7).cache ⟨"/x", ""⟩ "http://o"
          (fun _ => FetchResult.success ⟨200, [], Body.val (Jval.obj [("a", Jval.num 1)])⟩)
          now2).xCache = some "HIT" ∧
      (HandleRequest (HandleRequest [] ⟨"/x", ""⟩ "http://o"
          (fun _ => FetchResult.success ⟨200, [], Body.val (Jval.obj [("a", Jval.num 1)])⟩)
          7).cache ⟨"/x", ""⟩ "http://o"
          (fun _ => FetchResult.success ⟨200, [], Body.val (Jval.obj [("a", Jval.num 1)])⟩)
          now2).clientBody = encodeJson (Jval.obj [("a", Jval.num 1)])) :=
  ⟨by rfl, by rfl, by rfl, decoded_object_roundtrips _ _ _ _ _ _ _ (by rfl) (by rfl) (by rfl)⟩

/-- C9: the origin's HTTP status code is never examined, stored, or
propagated: two origins answering the same headers and body but different
status codes produce identical handler outcomes; when the body decodes as
a JSON object the client receives status 200 on the miss, the response is
cached, and every later request for the path is a hit with status 200. -/
theorem origin_status_never_examined (c : Cache) (r : Request)
    (origin : String) (w1 w2 : Origin) (now : Nat) (s1 s2 : Nat)
    (hdr : HeaderVal) (b : Body) (responseData : List (String × Jval))
    (habs : mapLookup c (cacheKeyOf origin r) = none)
    (hw1 : w1 (cacheKeyOf origin r) = FetchResult.success ⟨s1, hdr, b⟩)
    (hw2 : w2 (cacheKeyOf origin r) = FetchResult.success ⟨s2, hdr, b⟩)
    (hb : decodeObj b = some (ResponseData.obj responseData)) :
    HandleRequest c r origin w1 now = HandleRequest c r origin w2 now ∧
    (HandleRequest c r origin w1 now).status = 200 ∧
    ∀ now2,
      (HandleRequest (HandleRequest c r origin w1 now).cache r origin w1 now2).status = 200 ∧
      (HandleRequest (HandleRequest c r origin w1 now).cache r origin w1 now2).xCache =
        some "HIT" := by
  have hm1 := handleRequest_miss_eq c r origin w1 now ⟨s1, hdr, b⟩
    (ResponseData.obj responseData) habs hw1 hb
  have hm2 := handleRequest_miss_eq c r origin w2 now ⟨s2, hdr, b⟩
    (ResponseData.obj responseData) habs hw2 hb
  have hlook : mapLookup (HandleRequest c r origin w1 now).cache
      (cacheKeyOf origin r) =
      some ⟨encodeJson (Jval.obj responseData), hdr.map (fun kv => kv), now⟩ := by
    rw [hm1]; exact mapLookup_insert_self _ _ _
  refine ⟨by rw [hm1, hm2], by rw [hm1], fun now2 => ?_⟩
  rw [handleRequest_hit_eq _ r origin w1 now2 _ hlook]
  exact ⟨rfl, rfl⟩

/-- Witness for C9: origin answers status 404 vs 500 with the same body. -/
theorem origin_status_never_examined_witness :
    mapLookup [] (cacheKeyOf "http://o" ⟨"/x", ""⟩) = none ∧
    (fun _ => FetchResult.success ⟨404, [], Body.val (Jval.obj [("a", Jval.num 1)])⟩ :
      Origin) (cacheKeyOf "http://o" ⟨"/x", ""⟩) =
      FetchResult.success ⟨404, [], Body.val (Jval.obj [("a", Jval.num 1)])⟩ ∧
    (fun _ => FetchResult.success ⟨500, [], Body.val (Jval.obj [("a", Jval.num 1)])⟩ :
      Origin) (cacheKeyOf "http://o" ⟨"/x", ""⟩) =
      FetchResult.success ⟨500, [], Body.val (Jval.obj [("a", Jval.num 1)])⟩ ∧
    decodeObj (Body.val (Jval.obj [("a", Jval.num 1)])) =
      some (ResponseData.obj [("a", Jval.num 1)]) ∧
    (HandleRequest [] ⟨"/x", ""⟩ "http://o"
        (fun _ => FetchResult.success ⟨404, [], Body.val (Jval.obj [("a", Jval.num 1)])⟩) 7 =
      HandleRequest [] ⟨"/x", ""⟩ "http://o"
        (fun _ => FetchResult.success ⟨500, [], Body.val (Jval.obj [("a", Jval.num 1)])⟩) 7 ∧
    (HandleRequest [] ⟨"/x", ""⟩ "http://o"
        (fun _ => FetchResult.success ⟨404, [], Body.val (Jval.obj [("a", Jval.num 1)])⟩) 7).status
      = 200 ∧
    ∀ now2,
      (HandleRequest (HandleRequest [] ⟨"/x", ""⟩ "http://o"
          (fun _ => FetchResult.success ⟨404, [], Body.val (Jval.obj [("a", Jval.num 1)])⟩)
          7).cache ⟨"/x", ""⟩ "http://o"
          (fun _ => FetchResult.success ⟨404, [], Body.val (Jval.obj [("a", Jval.num 1)])⟩)
          now2).status = 200 ∧
      (HandleRequest (HandleRequest [] ⟨"/x", ""⟩ "http://o"
          (fun _ => FetchResult.success ⟨404, [], Body.val (Jval.obj [("a", Jval.num 1)])⟩)
          7).cache ⟨"/x", ""⟩ "http://o"
          (fun _ => FetchResult.success ⟨404, [], Body.val (Jval.obj [("a", Jval.num 1)])⟩)
          now2).xCache = some "HIT") :=
  ⟨by rfl, by rfl, by rfl, by rfl,
    origin_status_never_examined _ _ _ _ _ _ _ _ _ _ _ (by rfl) (by rfl) (by rfl) (by rfl)⟩

/-- C10: the miss response body is the canonical encoding of the decoded
object followed by a newline (`json.NewEncoder(w).Encode`); the entry
stored in the cache — and hence every later hit body — is the canonical
encoding without the newline (`json.Marshal`); the two therefore differ
byte-wise while both encode the same decoded value. -/
theorem miss_body_has_newline_hit_body_does_not (c : Cache) (r : Request)
    (origin : String) (world : Origin) (now : Nat) (res : OriginResponse)
    (responseData : List (String × Jval))
    (habs : mapLookup c (cacheKeyOf origin r) = none)
    (hw : world (cacheKeyOf origin r) = FetchResult.success res)
    (hd : decodeObj res.body = some (ResponseData.obj responseData)) :
    (HandleRequest c r origin world now).clientBody =
      encodeJson (Jval.obj responseData) ++ "\n" ∧
    (mapLookup (HandleRequest c r origin world now).cache
        (cacheKeyOf origin r)).map CacheItem.Response =
      some (encodeJson (Jval.obj responseData)) ∧
    (∀ now2,
      (HandleRequest (HandleRequest c r origin world now).cache r origin world now2).clientBody =
        encodeJson (Jval.obj responseData)) ∧
    ∀ now2,
      (HandleRequest c r origin world now).clientBody ≠
        (HandleRequest (HandleRequest c r origin world now).cache r origin world now2).clientBody := by
  have hm := handleRequest_miss_eq c r origin world now res
    (ResponseData.obj responseData) habs hw hd
  have hlook : mapLookup (HandleRequest c r origin world now).cache
      (cacheKeyOf origin r) =
      some ⟨encodeJson (Jval.obj responseData), res.header.map (fun kv => kv), now⟩ := by
    rw [hm]; exact mapLookup_insert_self _ _ _
  have hmiss : (HandleRequest c r origin world now).clientBody =
      encodeJson (Jval.obj responseData) ++ "\n" := by
    rw [hm]; rfl
  have hhit : ∀ now2,
      (HandleRequest (HandleRequest c r origin world now).cache r origin world now2).clientBody =
        encodeJson (Jval.obj responseData) := by
    intro now2; rw [handleRequest_hit_eq _ r origin world now2 _ hlook]
  refine ⟨hmiss, by rw [hlook]; rfl, hhit, fun now2 heq => ?_⟩
  rw [hmiss, hhit now2] at heq
  have hlen := congrArg String.length heq
  rw [String.length_append] at hlen
  simp at hlen
  exact absurd hlen (by decide)

/-- Witness for C10 on a concrete origin object `{"a":1}`. -/
theorem miss_body_has_newline_hit_body_does_not_witness :
    mapLookup [] (cacheKeyOf "http://o" ⟨"/x", ""⟩) = none ∧
    (fun _ => FetchResult.success ⟨200, [], Body.val (Jval.obj [("a", Jval.num 1)])⟩ :
      Origin) (cacheKeyOf "http://o" ⟨"/x", ""⟩) =
      FetchResult.success ⟨200, [], Body.val (Jval.obj [("a", Jval.num 1)])⟩ ∧
    decodeObj (OriginResponse.body ⟨200, [], Body.val (Jval.obj [("a", Jval.num 1)])⟩) =
      some (ResponseData.obj [("a", Jval.num 1)]) ∧
    ((HandleRequest [] ⟨"/x", ""⟩ "http://o"
        (fun _ => FetchResult.success ⟨200, [], Body.val (Jval.obj [("a", Jval.num 1)])⟩)
        7).clientBody = encodeJson (Jval.obj [("a", Jval.num 1)]) ++ "\n" ∧
    (mapLookup (HandleRequest [] ⟨"/x", ""⟩ "http://o"
        (fun _ => FetchResult.success ⟨200, [], Body.val (Jval.obj [("a", Jval.num 1)])⟩)
        7).cache (cacheKeyOf "http://o" ⟨"/x", ""⟩)).map CacheItem.Response =
      some (encodeJson (Jval.obj [("a", Jval.num 1)])) ∧
    (∀ now2,
      (HandleRequest (HandleRequest [] ⟨"/x", ""⟩ "http://o"
          (fun _ => FetchResult.success ⟨200, [], Body.val (Jval.obj [("a", Jval.num 1)])⟩)
          7).cache ⟨"/x", ""⟩ "http://o"
          (fun _ => FetchResult.success ⟨200, [], Body.val (Jval.obj [("a", Jval.num 1)])⟩)
          now2).clientBody = encodeJson (Jval.obj [("a", Jval.num 1)])) ∧
    ∀ now2,
      (HandleRequest [] ⟨"/x", ""⟩ "http://o"
          (fun _ => FetchResult.success ⟨200, [], Body.val (Jval.obj [("a", Jval.num 1)])⟩)
          7).clientBody ≠
        (HandleRequest (HandleRequest [] ⟨"/x", ""⟩ "http://o"
            (fun _ => FetchResult.success ⟨200, [], Body.val (Jval.obj [("a", Jval.num 1)])⟩)
            7).cache ⟨"/x", ""⟩ "http://o"
            (fun _ => FetchResult.success ⟨200, [], Body.val (Jval.obj [("a", Jval.num 1)])⟩)
            now2).clientBody) :=
  ⟨by rfl, by rfl, by rfl,
    miss_body_has_newline_hit_body_does_not _ _ _ _ _ _ _ (by rfl) (by rfl) (by rfl)⟩

/-! ## Reference-level model of the header copy (C5)

Go's `http.Header` is `map[string][]string`.  The loop

```
copiedHeaders := make(http.Header)
for k, v := range res.Header { copiedHeaders[k] = v }
```

builds a fresh map, but each value `v` is a slice header: the backing
arrays of the value slices stay shared between `res.Header` and
`copiedHeaders`.  To make that observable we model slices as references
into a heap of backing arrays. -/

/-- A Go `[]string` value, as a reference into the slice heap. -/
abbrev SliceRef := Nat

/-- The backing arrays of all live `[]string` slices. -/
abbrev SliceHeap := List (List String)

/-- A Go `http.Header` map object: each key bound to a slice reference. -/
abbrev GoHeader := List (String × SliceRef)

/-- Dereference one slice. -/
def readSlice (heap : SliceHeap) (ref : SliceRef) : List String :=
  heap.getD ref []

/-- The header contents an observer sees when reading the map `h`:
every value slice dereferenced. -/
def readHeader (heap : SliceHeap) (h : GoHeader) : HeaderVal :=
  h.map (fun kv => (kv.1, readSlice heap kv.2))

/-- The `for k, v := range res.Header { copiedHeaders[k] = v }` loop:
a fresh map holding the same key-to-slice-reference bindings. -/
def copiedHeadersOf (h : GoHeader) : GoHeader :=
  h.map (fun kv => kv)

/-- An in-place element write through the source header
(`res.Header[k][i] = x` in Go): mutates the shared backing array. -/
def writeSliceElem (heap : SliceHeap) (ref : SliceRef) (i : Nat) (x : String) :
    SliceHeap :=
  heap.set ref ((heap.getD ref []).set i x)

/-- `res.Header.Set(k, x)` after the insert: allocates a fresh
one-element backing array and rebinds `k` in the *source* map only. -/
def headerSetKey (heap : SliceHeap) (h : GoHeader) (k x : String) :
    SliceHeap × GoHeader :=
  (heap ++ [[x]], (k, heap.length) :: h.filter (fun kv => kv.1 ≠ k))

/-- A cache entry at the reference level: same fields as `CacheItem`, with
the header snapshot holding slice references. -/
structure CacheItemRef where
  Response : String
  Headers : GoHeader
  CachedAt : Nat
deriving Repr, DecidableEq

/-- The cache map at the reference level. -/
abbrev CacheRefMap := List (String × CacheItemRef)

/-- Go map read, reference level. -/
def mapLookupRef (c : CacheRefMap) (k : String) : Option CacheItemRef :=
  match c.find? (fun p => p.1 = k) with
  | some p => some p.2
  | none => none

/-- Go map assignment, reference level. -/
def mapInsertRef (c : CacheRefMap) (k : String) (v : CacheItemRef) : CacheRefMap :=
  (k, v) :: c.filter (fun p => p.1 ≠ k)

theorem mapLookupRef_insert_self (c : CacheRefMap) (k : String) (v : CacheItemRef) :
    mapLookupRef (mapInsertRef c k v) k = some v := by
  simp [mapLookupRef, mapInsertRef, List.find?]

/-- C5 counterexample: the header copy taken at insert is shallow.  The
origin header map `[("K", ref 0)]` with backing array `["old"]` is copied
into the cache under key `"http://o/x"`; the in-place write
`res.Header["K"][0] = "new"` after the insert changes what a later lookup
of that key observes — from `[("K", ["old"])]` to `[("K", ["new"])]`. -/
theorem header_copy_is_shallow_counterexample :
    (mapLookupRef (mapInsertRef [] "http://o/x"
        ⟨"body", copiedHeadersOf [("K", 0)], 0⟩) "http://o/x").map
      (fun it => readHeader (writeSliceElem [["old"]] 0 0 "new") it.Headers) ≠
    (mapLookupRef (mapInsertRef [] "http://o/x"
        ⟨"body", copiedHeadersOf [("K", 0)], 0⟩) "http://o/x").map
      (fun it => readHeader [["old"]] it.Headers) := by
  decide

/-- C5 (amended): the entry owns an independent copy of the
key-to-value-slice map: map-level mutation of the source header after the
insert — `res.Header.Set(k, x)`, which allocates a fresh backing array and
rebinds `k` — leaves the header set observed by a later lookup of the key
exactly as it was at insert time.  (Element-level writes through the
shared value slices are *not* isolated; see the counterexample.) -/
theorem header_copy_isolated_at_map_level (heap : SliceHeap) (h : GoHeader)
    (c : CacheRefMap) (key body : String) (t : Nat) (k x : String)
    (hvalid : ∀ kv ∈ h, kv.2 < heap.length) :
    (mapLookupRef (mapInsertRef c key ⟨body, copiedHeadersOf h, t⟩) key).map
        (fun it => readHeader (headerSetKey heap h k x).1 it.Headers) =
      some (readHeader heap h) := by
  rw [mapLookupRef_insert_self]
  simp only [Option.map_some']
  congr 1
  unfold readHeader copiedHeadersOf headerSetKey
  rw [List.map_map]
  apply List.map_congr_left
  intro kv hkv
  simp only [Function.comp]
  congr 1
  unfold readSlice
  exact List.getD_append _ _ _ _ (hvalid kv hkv)

/-- Witness for the amended C5 at a concrete header and heap. -/
theorem header_copy_isolated_at_map_level_witness :
    (∀ kv ∈ ([("K", 0)] : GoHeader), kv.2 < ([["old"]] : SliceHeap).length) ∧
    (mapLookupRef (mapInsertRef [] "http://o/x"
        ⟨"body", copiedHeadersOf [("K", 0)], 7⟩) "http://o/x").map
        (fun it => readHeader (headerSetKey [["old"]] [("K", 0)] "K" "new").1 it.Headers) =
      some (readHeader [["old"]] [("K", 0)]) :=
  ⟨by decide, header_copy_isolated_at_map_level _ _ _ _ _ _ _ _ (by decide)⟩

/-! ## RWMutex interleaving model (C8)

`main.go` guards the cache map with a `sync.RWMutex`: lookups run under
`RLock`/`RUnlock` (lines 47–49) and the insert under `Lock`/`Unlock`
(lines 83–102).  To give "no torn entry" content, the map assignment
`cache[originURL] = CacheItem{...}` is modelled at field granularity: a
writer thread stores the body and the headers of the contended key's slot
in two separate steps, so a half-written slot exists in the model and
only the lock discipline keeps readers from seeing it. -/

/-- What one miss-handling thread is about to insert. -/
structure Payload where
  body : String
  hdrs : HeaderVal
deriving Repr, DecidableEq

/-- The shared slot for the contended key, at field granularity. -/
inductive Slot where
  | empty : Slot
  | halfWritten (body : String) : Slot
  | full (body : String) (hdrs : HeaderVal) : Slot
deriving Repr, DecidableEq

/-- Program counter of a writer thread across `Lock()` … `Unlock()`. -/
inductive WPc where
  | idle : WPc
  | locked : WPc
  | wroteBody : WPc
  | wroteAll : WPc
  | finished : WPc
deriving Repr, DecidableEq

/-- One miss-handling thread: its pending insert and where it stands. -/
structure WThread where
  payload : Payload
  pc : WPc
deriving Repr, DecidableEq

/-- A global configuration: how many readers hold the read lock, which
writer (if any) holds the write lock, the slot contents, and the writer
threads. -/
structure Config where
  readers : Nat
  writer : Option Nat
  slot : Slot
  threads : List WThread
deriving Repr, DecidableEq

/-- The interleaved transitions.  `RLock` blocks while a writer holds the
lock; `Lock` blocks while any reader or writer holds it — exactly
`sync.RWMutex`'s contract. -/
inductive Step : Config → Config → Prop where
  | rlock (c : Config) (h : c.writer = none) :
      Step c { c with readers := c.readers + 1 }
  | runlock (c : Config) (h : 0 < c.readers) :
      Step c { c with readers := c.readers - 1 }
  | wlock (c : Config) (i : Nat) (t : WThread)
      (ht : c.threads[i]? = some t) (hpc : t.pc = WPc.idle)
      (hw : c.writer = none) (hr : c.readers = 0) :
      Step c { c with writer := some i,
                      threads := c.threads.set i { t with pc := WPc.locked } }
  | wbody (c : Config) (i : Nat) (t : WThread)
      (ht : c.threads[i]? = some t) (hpc : t.pc = WPc.locked)
      (hw : c.writer = some i) :
      Step c { c with slot := Slot.halfWritten t.payload.body,
                      threads := c.threads.set i { t with pc := WPc.wroteBody } }
  | whdrs (c : Config) (i : Nat) (t : WThread)
      (ht : c.threads[i]? = some t) (hpc : t.pc = WPc.wroteBody)
      (hw : c.writer = some i) :
      Step c { c with slot := Slot.full t.payload.body t.payload.hdrs,
                      threads := c.threads.set i { t with pc := WPc.wroteAll } }
  | wunlock (c : Config) (i : Nat) (t : WThread)
      (ht : c.threads[i]? = some t) (hpc : t.pc = WPc.wroteAll)
      (hw : c.writer = some i) :
      Step c { c with writer := none,
                      threads := c.threads.set i { t with pc := WPc.finished } }

/-- N first-time requests for the same uncached path, about to insert
their independently fetched results: slot empty, no locks held. -/
def initConfig (ps : List Payload) : Config :=
  { readers := 0, writer := none, slot := Slot.empty,
    threads := ps.map (fun p => ⟨p, WPc.idle⟩) }

/-- Configurations reachable by any interleaving. -/
inductive Reachable (ps : List Payload) : Config → Prop where
  | init : Reachable ps (initConfig ps)
  | step {c c' : Config} : Reachable ps c → Step c c' → Reachable ps c'

/-- A pc inside the write-lock critical section. -/
def insideCS (p : WPc) : Prop :=
  p = WPc.locked ∨ p = WPc.wroteBody ∨ p = WPc.wroteAll

/-- The inductive invariant of the lock discipline. -/
def LockInv (c : Config) : Prop :=
  (∀ (i : Nat) (t : WThread), c.threads[i]? = some t → insideCS t.pc → c.writer = some i) ∧
  (∀ i : Nat, c.writer = some i → ∃ t : WThread, c.threads[i]? = some t ∧ insideCS t.pc) ∧
  (0 < c.readers → c.writer = none) ∧
  (∀ b, c.slot = Slot.halfWritten b →
    ∃ (i : Nat) (t : WThread), c.writer = some i ∧ c.threads[i]? = some t ∧
      t.pc = WPc.wroteBody ∧ b = t.payload.body) ∧
  (∀ b h, c.slot = Slot.full b h → (⟨b, h⟩ : Payload) ∈ c.threads.map WThread.payload) ∧
  (∀ t ∈ c.threads, c.slot = Slot.empty → t.pc = WPc.idle ∨ t.pc = WPc.locked)

theorem map_payload_set (threads : List WThread) (i : Nat) (t : WThread)
    (q : WPc) (h : threads[i]? = some t) :
    (threads.set i { t with pc := q }).map WThread.payload =
      threads.map WThread.payload := by
  induction threads generalizing i with
  | nil => simp at h
  | cons hd tl ih =>
      cases i with
      | zero => simp at h; simp [h]
      | succ j => simp at h; simp [List.set, ih j h]

theorem lockInv_init (ps : List Payload) : LockInv (initConfig ps) := by
  refine ⟨?_, ?_, ?_, ?_, ?_, ?_⟩
  · intro i t ht hcs
    rw [show (initConfig ps).threads = ps.map (fun p => ⟨p, WPc.idle⟩) from rfl,
      List.getElem?_map] at ht
    cases hp : ps[i]? with
    | none => rw [hp] at ht; simp at ht
    | some p =>
        rw [hp] at ht
        simp only [Option.map_some'] at ht
        cases ht
        rcases hcs with h | h | h <;> simp at h
  · intro i hw; simp [initConfig] at hw
  · intro _; rfl
  · intro b hb; simp [initConfig] at hb
  · intro b h hb; simp [initConfig] at hb
  · intro t ht _
    simp only [initConfig, List.mem_map] at ht
    obtain ⟨p, _, rfl⟩ := ht
    exact Or.inl rfl

theorem lockInv_step {c c' : Config} (hc : LockInv c) (hs : Step c c') :
    LockInv c' := by
  obtain ⟨h1, h2, h3, h4, h5, h6⟩ := hc
  cases hs with
  | rlock h =>
      exact ⟨h1, h2, fun _ => h, h4, h5, h6⟩
  | runlock h =>
      exact ⟨h1, h2, fun hr => h3 (by omega), h4, h5, h6⟩
  | wlock i t ht hpc hw hr =>
      have hlen : i < c.threads.length := (List.getElem?_eq_some.mp ht).1
      refine ⟨?_, ?_, ?_, ?_, ?_, ?_⟩
      · intro j t' ht' hcs
        by_cases hij : i = j
        · subst hij; rfl
        · have ht'' : c.threads[j]? = some t' := by
            rw [← List.getElem?_set_ne hij]; exact ht'
          have := h1 j t' ht'' hcs
          rw [hw] at this
          exact absurd this (by simp)
      · intro j hwj
        have hij : i = j := by injection hwj
        subst hij
        exact ⟨{ t with pc := WPc.locked }, List.getElem?_set_self hlen, Or.inl rfl⟩
      · intro h0
        have h0' : 0 < c.readers := h0
        rw [hr] at h0'
        exact absurd h0' (by simp)
      · intro b hb
        obtain ⟨i2, t2, hwi2, _, _, _⟩ := h4 b hb
        rw [hw] at hwi2
        exact absurd hwi2 (by simp)
      · intro b h hb
        show (⟨b, h⟩ : Payload) ∈
          (c.threads.set i { t with pc := WPc.locked }).map WThread.payload
        rw [map_payload_set _ _ _ _ ht]
        exact h5 b h hb
      · intro t' ht' hempty
        rcases List.mem_or_eq_of_mem_set ht' with hmem | heq
        · exact h6 t' hmem hempty
        · subst heq; exact Or.inr rfl
  | wbody i t ht hpc hw =>
      have hlen : i < c.threads.length := (List.getElem?_eq_some.mp ht).1
      refine ⟨?_, ?_, ?_, ?_, ?_, ?_⟩
      · intro j t' ht' hcs
        by_cases hij : i = j
        · subst hij; exact hw
        · have ht'' : c.threads[j]? = some t' := by
            rw [← List.getElem?_set_ne hij]; exact ht'
          exact h1 j t' ht'' hcs
      · intro j hwj
        have hwj' : c.writer = some j := hwj
        rw [hw] at hwj'
        have hij : i = j := by injection hwj'
        subst hij
        exact ⟨{ t with pc := WPc.wroteBody }, List.getElem?_set_self hlen,
          Or.inr (Or.inl rfl)⟩
      · intro h0
        have := h3 h0
        rw [hw] at this
        exact absurd this (by simp)
      · intro b hb
        have hb' : Slot.halfWritten t.payload.body = Slot.halfWritten b := hb
        injection hb' with hbval
        exact ⟨i, { t with pc := WPc.wroteBody }, hw, List.getElem?_set_self hlen,
          rfl, hbval.symm⟩
      · intro b h hb
        have hb' : Slot.halfWritten t.payload.body = Slot.full b h := hb
        exact absurd hb' (by simp)
      · intro t' _ hempty
        have hb' : Slot.halfWritten t.payload.body = Slot.empty := hempty
        exact absurd hb' (by simp)
  | whdrs i t ht hpc hw =>
      have hlen : i < c.threads.length := (List.getElem?_eq_some.mp ht).1
      refine ⟨?_, ?_, ?_, ?_, ?_, ?_⟩
      · intro j t' ht' hcs
        by_cases hij : i = j
        · subst hij; exact hw
        · have ht'' : c.threads[j]? = some t' := by
            rw [← List.getElem?_set_ne hij]; exact ht'
          exact h1 j t' ht'' hcs
      · intro j hwj
        have hwj' : c.writer = some j := hwj
        rw [hw] at hwj'
        have hij : i = j := by injection hwj'
        subst hij
        exact ⟨{ t with pc := WPc.wroteAll }, List.getElem?_set_self hlen,
          Or.inr (Or.inr rfl)⟩
      · intro h0
        have := h3 h0
        rw [hw] at this
        exact absurd this (by simp)
      · intro b hb
        have hb' : Slot.full t.payload.body t.payload.hdrs = Slot.halfWritten b := hb
        exact absurd hb' (by simp)
      · intro b h hb
        have hb' : Slot.full t.payload.body t.payload.hdrs = Slot.full b h := hb
        injection hb' with hb1 hb2
        show (⟨b, h⟩ : Payload) ∈
          (c.threads.set i { t with pc := WPc.wroteAll }).map WThread.payload
        rw [map_payload_set _ _ _ _ ht]
        have hpay : (⟨b, h⟩ : Payload) = t.payload := by
          cases hb1; cases hb2; rfl
        rw [hpay]
        exact List.mem_map_of_mem WThread.payload (List.getElem?_mem ht)
      · intro t' _ hempty
        have hb' : Slot.full t.payload.body t.payload.hdrs = Slot.empty := hempty
        exact absurd hb' (by simp)
  | wunlock i t ht hpc hw =>
      have hlen : i < c.threads.length := (List.getElem?_eq_some.mp ht).1
      refine ⟨?_, ?_, ?_, ?_, ?_, ?_⟩
      · intro j t' ht' hcs
        by_cases hij : i = j
        · subst hij
          have ht'' : some ({ t with pc := WPc.finished }) = some t' := by
            rw [← List.getElem?_set_self hlen]; exact ht'
          cases ht''
          rcases hcs with h' | h' | h' <;> simp at h'
        · have ht'' : c.threads[j]? = some t' := by
            rw [← List.getElem?_set_ne hij]; exact ht'
          have := h1 j t' ht'' hcs
          rw [hw] at this
          have : i = j := by injection this
          exact absurd this hij
      · intro j hwj
        exact absurd hwj (by simp)
      · intro _; rfl
      · intro b hb
        have hb' : c.slot = Slot.halfWritten b := hb
        obtain ⟨i2, t2, hwi2, ht2, hpc2, _⟩ := h4 b hb'
        rw [hw] at hwi2
        have hii : i = i2 := by injection hwi2
        subst hii
        rw [ht] at ht2
        cases ht2
        rw [hpc] at hpc2
        exact absurd hpc2 (by simp)
      · intro b h hb
        show (⟨b, h⟩ : Payload) ∈
          (c.threads.set i { t with pc := WPc.finished }).map WThread.payload
        rw [map_payload_set _ _ _ _ ht]
        exact h5 b h hb
      · intro t' ht' hempty
        rcases List.mem_or_eq_of_mem_set ht' with hmem | heq
        · exact h6 t' hmem hempty
        · exfalso
          have := h6 t (List.getElem?_mem ht) hempty
          rw [hpc] at this
          rcases this with h' | h' <;> simp at h'

theorem lockInv_reachable (ps : List Payload) (c : Config)
    (h : Reachable ps c) : LockInv c := by
  induction h with
  | init => exact lockInv_init ps
  | step _ hs ih => exact lockInv_step ih hs

/-- C8: under the `RWMutex` discipline, the two-field cache insert is
atomic with respect to concurrent lookups and other inserts: in every
reachable interleaving, while any reader holds the read lock (as the
lookup at lines 47–49 does) the slot is never half-written, and any full
slot it observes carries exactly the payload of one inserting thread; and
once all N concurrent miss-handling threads for the same uncached path
have finished, the slot holds one fully-formed entry that is
byte-for-byte the payload of one of those threads. -/
theorem insert_atomic_no_torn_entry (ps : List Payload) (c : Config)
    (hreach : Reachable ps c) :
    (0 < c.readers →
      (∀ b, c.slot ≠ Slot.halfWritten b) ∧
      (∀ b h, c.slot = Slot.full b h →
        (⟨b, h⟩ : Payload) ∈ c.threads.map WThread.payload)) ∧
    ((∀ t ∈ c.threads, t.pc = WPc.finished) → c.threads ≠ [] →
      ∃ b h, c.slot = Slot.full b h ∧
        (⟨b, h⟩ : Payload) ∈ c.threads.map WThread.payload) := by
  obtain ⟨h1, h2, h3, h4, h5, h6⟩ := lockInv_reachable ps c hreach
  constructor
  · intro hr
    have hw := h3 hr
    refine ⟨fun b hb => ?_, h5⟩
    obtain ⟨i, t, hwi, _, _, _⟩ := h4 b hb
    rw [hw] at hwi
    exact absurd hwi (by simp)
  · intro hall hne
    have hw : c.writer = none := by
      cases hwc : c.writer with
      | none => rfl
      | some i =>
          obtain ⟨t, ht, hcs⟩ := h2 i hwc
          have := hall t (List.getElem?_mem ht)
          rw [this] at hcs
          rcases hcs with h' | h' | h' <;> simp at h'
    cases hslot : c.slot with
    | empty =>
        exfalso
        obtain ⟨t, htmem⟩ := List.exists_mem_of_ne_nil c.threads hne
        have := h6 t htmem hslot
        rw [hall t htmem] at this
        rcases this with h' | h' <;> simp at h'
    | halfWritten b =>
        exfalso
        obtain ⟨i, t, hwi, _, _, _⟩ := h4 b hslot
        rw [hw] at hwi
        exact absurd hwi (by simp)
    | full b h => exact ⟨b, h, rfl, h5 b h hslot⟩

/-- Witness for C8: one writer thread runs its full insert under the
write lock, then a reader acquires the read lock and observes one
fully-formed entry equal to that thread's payload. -/
theorem insert_atomic_no_torn_entry_witness :
    Reachable [⟨"B", [("K", ["v"])]⟩]
      ⟨1, none, Slot.full "B" [("K", ["v"])],
        [⟨⟨"B", [("K", ["v"])]⟩, WPc.finished⟩]⟩ ∧
    ((0 < (1 : Nat) →
      (∀ b, Slot.full "B" [("K", ["v"])] ≠ Slot.halfWritten b) ∧
      (∀ b h, Slot.full "B" [("K", ["v"])] = Slot.full b h →
        (⟨b, h⟩ : Payload) ∈
          [(⟨⟨"B", [("K", ["v"])]⟩, WPc.finished⟩ : WThread)].map WThread.payload)) ∧
    ((∀ t ∈ [(⟨⟨"B", [("K", ["v"])]⟩, WPc.finished⟩ : WThread)], t.pc = WPc.finished) →
      [(⟨⟨"B", [("K", ["v"])]⟩, WPc.finished⟩ : WThread)] ≠ [] →
      ∃ b h, Slot.full "B" [("K", ["v"])] = Slot.full b h ∧
        (⟨b, h⟩ : Payload) ∈
          [(⟨⟨"B", [("K", ["v"])]⟩, WPc.finished⟩ : WThread)].map WThread.payload)) := by
  have r0 : Reachable [⟨"B", [("K", ["v"])]⟩]
      (initConfig [⟨"B", [("K", ["v"])]⟩]) := Reachable.init
  have r1 := Reachable.step r0
    (Step.wlock _ 0 ⟨⟨"B", [("K", ["v"])]⟩, WPc.idle⟩ rfl rfl rfl rfl)
  have r2 := Reachable.step r1
    (Step.wbody _ 0 ⟨⟨"B", [("K", ["v"])]⟩, WPc.locked⟩ rfl rfl rfl)
  have r3 := Reachable.step r2
    (Step.whdrs _ 0 ⟨⟨"B", [("K", ["v"])]⟩, WPc.wroteBody⟩ rfl rfl rfl)
  have r4 := Reachable.step r3
    (Step.wunlock _ 0 ⟨⟨"B", [("K", ["v"])]⟩, WPc.wroteAll⟩ rfl rfl rfl)
  have r5 := Reachable.step r4 (Step.rlock _ rfl)
  exact ⟨r5, insert_atomic_no_torn_entry _ _ r5⟩
